import Mathlib

/-!
Shallow embedding of the `ostrbor/lib` Go repository: the structured JSON
event logger (package `log`) and the HTTP middleware (package `middleware`).

Modelling conventions:
  * Go byte slices and strings are modelled as Lean `String`s; `len` is
    `String.length`.
  * Go maps used as ordered-by-construction data (`http.Header`,
    `url.Values`, `map[string]string`) are modelled as association lists.
    A `nil` map is distinguished from an empty map (`Option`) only where
    the source distinguishes them (the `Context` setter's `cnt == nil`
    check); elsewhere the source only uses `len`, for which the two agree.
  * `fmt.Sprintf` with `%d` is decimal rendering, i.e. `Nat.repr` /
    `Int.repr`; `%q`/`%#v` are modelled by concrete rendering functions
    (`goQuote`, dump functions) — no claim depends on their exact output.
  * Effects (clock, hostname, the io reads and writes, `json.Marshal`'s
    outcome) are passed in as parameters, matching where the Go code
    receives them from its environment.
-/

namespace log

/-- Header maps (`http.Header`) and query maps (`url.Values`): association
lists from a name to its ordered list of values. -/
abbrev Header := List (String × List String)

/-- Query parameters, `url.Values` in the source: same shape as `Header`. -/
abbrev Values := List (String × List String)

/-- Source: `const BodyLimit = 2 * 1 << 10`.  Go parses `*` and `<<` at the
same precedence level, left associatively, so this is `(2 * 1) << 10`. -/
def BodyLimit : Nat := (2 * 1) <<< 10

/-- Request sub-record of an event (source struct `request`).  `Headers` is
`none` when the Go map is `nil` (its `omitempty` case). -/
structure request where
  Method : String
  Host : String
  Path : String
  Query : Values
  Headers : Option (List (String × String))
  Body : String
deriving Repr, DecidableEq

/-- Response sub-record of an event (source struct `response`). -/
structure response where
  StatusCode : Int
  Headers : Option (List (String × String))
  Body : String
deriving Repr, DecidableEq

/-- The structured log record (source struct `event`).  `Context` is `none`
when the Go map is `nil`, `some []` when it is an empty non-nil map. -/
structure event where
  Message : String
  Timestamp : String
  ReferenceID : String
  User : String
  Error : String
  Context : Option (List (String × String))
  Request : Option request
  Response : Option response
  Hostname : String
deriving Repr, DecidableEq

/-- The event Log starts from: message plus the ambient timestamp and
hostname, every optional field empty (Go zero values). -/
def initEvent (message ts hostname : String) : event :=
  { Message := message, Timestamp := ts, ReferenceID := "", User := "",
    Error := "", Context := none, Request := none, Response := none,
    Hostname := hostname }

/-- Option functions (source type `SetFieldValue`), modelled functionally:
a mutation of the event under construction. -/
abbrev SetFieldValue := event → event

/-- Source setter `ReferenceID`. -/
def ReferenceID (referenceID : String) : SetFieldValue :=
  fun e => { e with ReferenceID := referenceID }

/-- Source setter `Error`; the argument is the Go error's `Error()` string. -/
def Error (err : String) : SetFieldValue :=
  fun e => { e with Error := err }

/-- Source setter `User`. -/
def User (user : String) : SetFieldValue :=
  fun e => { e with User := user }

/-- Source setter `Context`: a `nil` map (`none`) is skipped so that the
field keeps its previous value; any non-nil map (including an empty one)
overwrites the field. -/
def Context (cnt : Option (List (String × String))) : SetFieldValue :=
  fun e =>
    match cnt with
    | none => e
    | some m => { e with Context := some m }

/-- Source `formatHeaders`: `nil` out for an empty map, otherwise each
value list joined by `", "` (`strings.Join(values, ", ")`). -/
def formatHeaders (headers : Header) : Option (List (String × String)) :=
  if headers.length = 0 then none
  else some (headers.map (fun p => (p.1, String.intercalate ", " p.2)))

/-- Source `formatBody`: empty body stays empty, oversized bodies are
replaced by the diagnostic line built with `fmt.Sprintf("%d", ...)`. -/
def formatBody (body : String) : String :=
  if body.length = 0 then ""
  else if body.length > BodyLimit then
    "not logged: body size (" ++ Nat.repr body.length
      ++ " bytes) is bigger than limit (" ++ Nat.repr BodyLimit ++ " bytes)"
  else body

/-- Source setter `Request`: skipped when every argument is empty, so that
no empty JSON object is ever logged. -/
def Request (method host path : String) (query : Values) (headers : Header)
    (body : String) : SetFieldValue :=
  fun e =>
    if method = "" ∧ host = "" ∧ path = "" ∧ query.length = 0
        ∧ headers.length = 0 ∧ body.length = 0 then e
    else
      let r : request :=
        { Method := method, Host := host, Path := path, Query := query,
          Headers := formatHeaders headers, Body := formatBody body }
      { e with Request := some r }

/-- Source setter `Response`: skipped when the status code is zero and
headers and body are empty. -/
def Response (statusCode : Int) (headers : Header) (body : String) :
    SetFieldValue :=
  fun e =>
    if statusCode = 0 ∧ headers.length = 0 ∧ body.length = 0 then e
    else
      let r : response :=
        { StatusCode := statusCode, Headers := formatHeaders headers,
          Body := formatBody body }
      { e with Response := some r }

/-- Setters are applied to the event in the order given. -/
def applySetters (setters : List SetFieldValue) (e : event) : event :=
  setters.foldl (fun acc s => s acc) e

end log

namespace log

/-- Minimal JSON value model, enough to state which keys `json.Marshal`
emits and with which values. -/
inductive Json where
  | str : String → Json
  | num : Int → Json
  | arr : List Json → Json
  | obj : List (String × Json) → Json
deriving Repr

/-- Key lookup in a serialized JSON object (first match). -/
def getKey (k : String) : List (String × Json) → Option Json
  | [] => none
  | (k2, v) :: rest => if k2 = k then some v else getKey k rest

/-- Serialization of the `request` sub-record: every field carries
`omitempty`, so empty strings and empty maps are dropped. -/
def marshalRequest (r : request) : List (String × Json) :=
  (if r.Method = "" then [] else [("method", Json.str r.Method)])
  ++ (if r.Host = "" then [] else [("host", Json.str r.Host)])
  ++ (if r.Path = "" then [] else [("path", Json.str r.Path)])
  ++ (if r.Query.length = 0 then []
      else [("query", Json.obj (r.Query.map
              (fun p => (p.1, Json.arr (p.2.map Json.str)))))])
  ++ (match r.Headers with
      | none => []
      | some h =>
        if h.length = 0 then []
        else [("headers", Json.obj (h.map (fun p => (p.1, Json.str p.2))))])
  ++ (if r.Body = "" then [] else [("body", Json.str r.Body)])

/-- Serialization of the `response` sub-record: `status_code` has no
`omitempty` and is always present; headers and body are dropped if empty. -/
def marshalResponse (r : response) : List (String × Json) :=
  [("status_code", Json.num r.StatusCode)]
  ++ (match r.Headers with
      | none => []
      | some h =>
        if h.length = 0 then []
        else [("headers", Json.obj (h.map (fun p => (p.1, Json.str p.2))))])
  ++ (if r.Body = "" then [] else [("body", Json.str r.Body)])

/-- Serialization of an `event` by `json.Marshal`, field by struct field:
`message` and `timestamp` always present, every other field `omitempty`
(for a map that means nil or empty, for a pointer nil). -/
def marshalEvent (e : event) : List (String × Json) :=
  [("message", Json.str e.Message), ("timestamp", Json.str e.Timestamp)]
  ++ (if e.ReferenceID = "" then [] else [("reference_id", Json.str e.ReferenceID)])
  ++ (if e.User = "" then [] else [("user", Json.str e.User)])
  ++ (if e.Error = "" then [] else [("error", Json.str e.Error)])
  ++ (match e.Context with
      | none => []
      | some m =>
        if m.length = 0 then []
        else [("context", Json.obj (m.map (fun p => (p.1, Json.str p.2))))])
  ++ (match e.Request with
      | none => []
      | some r => [("request", Json.obj (marshalRequest r))])
  ++ (match e.Response with
      | none => []
      | some r => [("response", Json.obj (marshalResponse r))])
  ++ (if e.Hostname = "" then [] else [("hostname", Json.str e.Hostname)])

/-- Model of Go's `%q` verb on a string: double quotes around the text with
quote and backslash characters escaped. -/
def goQuote (s : String) : String :=
  "\"" ++ String.join (s.data.map (fun c =>
    if c = '"' then "\\\""
    else if c = '\\' then "\\\\"
    else String.singleton c)) ++ "\""

/-- Model of the `%#v` dump of an `event` used by the degraded fallback
line: a Go-syntax-like rendering of the fields.  No claim depends on its
exact shape, only on it being a textual dump of the event. -/
def goDumpEvent (e : event) : String :=
  "log.event\x7bMessage:" ++ goQuote e.Message
    ++ ", Timestamp:" ++ goQuote e.Timestamp
    ++ ", ReferenceID:" ++ goQuote e.ReferenceID
    ++ ", User:" ++ goQuote e.User
    ++ ", Error:" ++ goQuote e.Error ++ "\x7d"

/-- The degraded fallback line written to the sink when `json.Marshal`
fails (source: the `fmt.Sprintf` inside `Log`), embedding the error text,
the reference id and a textual dump of the event. -/
def marshalFallback (err : String) (e : event) : String :=
  "\x7b\"message\": \"failed json.Marshal\", \"error\": " ++ goQuote err
    ++ ", \"reference_id\": " ++ goQuote e.ReferenceID
    ++ ", \"context\": \x7b\"event\": \"" ++ goDumpEvent e ++ "\"\x7d\x7d"

/-- The diagnostic printed to standard output when the sink write fails
(source: the `fmt.Printf` inside `Log`). -/
def writeFallback (err : String) (e : event) (data : String) : String :=
  "\x7b\"message\": \"failed l.Writer.Write\", \"error\": " ++ goQuote err
    ++ ", \"reference_id\": " ++ goQuote e.ReferenceID
    ++ ", \"context\": \x7b\"data\": " ++ goQuote data ++ "\x7d\x7d"

/-- What one call to `Log` writes where: the bytes handed to the sink
(`Writer.Write`), and the diagnostics printed to standard output. -/
structure LogOutcome where
  sinkWrites : List String
  stdoutWrites : List String
deriving Repr, DecidableEq

/-- Source `Log`, with the environment passed in: `writerNil` is whether
the process-wide `Writer` is nil, `marshalRes` the outcome of
`json.Marshal` on the assembled event, `writeRes` the outcome of the sink
write (`none` = success).  `Log` itself returns nothing; everything it can
do is captured in the `LogOutcome`. -/
def Log (writerNil : Bool) (marshalRes : event → Except String String)
    (writeRes : String → Option String) (ts hostname : String)
    (message : String) (setters : List SetFieldValue) : LogOutcome :=
  if writerNil then { sinkWrites := [], stdoutWrites := [] }
  else
    let e := applySetters setters (initEvent message ts hostname)
    let lg :=
      match marshalRes e with
      | Except.ok s => s
      | Except.error err => marshalFallback err e
    match writeRes lg with
    | none => { sinkWrites := [lg], stdoutWrites := [] }
    | some err => { sinkWrites := [lg], stdoutWrites := [writeFallback err e lg] }

end log

namespace middleware

/-- Request-scoped context (`context.Context` values used by this
repository): string keys to string values; `context.WithValue` prepends,
lookup takes the innermost (first) match. -/
abbrev Ctx := List (String × String)

/-- Lookup in a request context, `r.Context().Value(key)`. -/
def ctxValue : Ctx → String → Option String
  | [], _ => none
  | (k, v) :: rest, key => if k = key then some v else ctxValue rest key

/-- The inbound HTTP request as seen by the middleware.  `body` is the io
outcome of the body stream: `none` for a nil body, `some (Except.ok s)`
for a stream whose full read yields `s`, `some (Except.error e)` for a
stream whose read fails with error text `e`. -/
structure HttpRequest where
  method : String
  host : String
  path : String
  query : log.Values
  headers : log.Header
  ctx : Ctx
  body : Option (Except String String)

/-- First value of a request header, `http.Header.Get` (the keys this
repository uses are already in canonical form). -/
def headerGet : log.Header → String → String
  | [], _ => ""
  | (k, vs) :: rest, key =>
    if k = key then (match vs with | [] => "" | v :: _ => v)
    else headerGet rest key

/-- Source `GetReferenceID`: the `reference_id` context value, or the
empty string when absent. -/
def GetReferenceID (r : HttpRequest) : String :=
  match ctxValue r.ctx "reference_id" with
  | some v => v
  | none => ""

/-- Source `GetUser`: the `user` context value, or the empty string when
absent. -/
def GetUser (r : HttpRequest) : String :=
  match ctxValue r.ctx "user" with
  | some v => v
  | none => ""

/-- A response writer: its header map (`w.Header()`), written to by
`Set` / direct assignment. -/
structure RWriter where
  headers : List (String × List String)

/-- Header `Set`: map assignment of a single-element value list. -/
def headersSet (hs : List (String × List String)) (k v : String) :
    List (String × List String) :=
  (k, [v]) :: hs.filter (fun p => p.1 ≠ k)

/-- Source middleware `ReferenceID`: take the `Reference-ID` request
header, or a freshly generated id (`shortuuid.New()`, passed in as `gen`)
when that header is absent or empty; store it in the request context and
in the response headers, then invoke the wrapped handler on the updated
request and writer. -/
def ReferenceID {α : Type} (gen : String)
    (handler : HttpRequest → RWriter → α)
    (w : RWriter) (r : HttpRequest) : α :=
  let ref0 := headerGet r.headers "Reference-ID"
  let ref := if ref0 = "" then gen else ref0
  let r2 := { r with ctx := ("reference_id", ref) :: r.ctx }
  let w2 := { w with headers := headersSet w.headers "Reference-ID" ref }
  handler r2 w2

/-- What a handler wrote to the isolated `httptest.NewRecorder`: status
code (`rec.Code`, 200 if the handler never set one), headers
(`rec.Header()`), and body (`rec.Body`). -/
structure Recorded where
  code : Int
  headers : log.Header
  body : String

/-- One observable action of `RequestResponseLogger` on its environment,
in order: invoking the wrapped handler, writing a header / the status /
body bytes to the real response writer, or emitting a log event. -/
inductive Step where
  | handlerInvoked
  | setHeader (k : String) (v : List String)
  | wroteStatus (code : Int)
  | wroteBody (s : String)
  | logged (msg : String) (e : log.event)

/-- The error-path JSON body carrying the reference id (source:
`fmt.Sprintf` over the 500 responses). -/
def refIDBody (refID : String) : String :=
  "\x7b\"reference_id\": \"" ++ refID ++ "\"\x7d"

/-- Model of the `%#v` dump of a request or recorder body object used in
the failure events' context maps; no claim depends on its exact shape. -/
def goDumpBody : Option (Except String String) → String
  | none => "<nil>"
  | some (Except.ok s) => "&bytes.Buffer\x7b" ++ log.goQuote s ++ "\x7d"
  | some (Except.error e) => "<unreadable: " ++ e ++ ">"

/-- The body content the wrapped handler can read after the middleware
replaced the consumed stream with a fresh buffer. -/
def reqBodyOf (r : HttpRequest) : String :=
  match r.body with
  | some (Except.ok s) => s
  | _ => ""

/-- The inbound transaction message, source:
`fmt.Sprintf("in '%s %s' %d", r.Method, r.Host+r.URL.Path, rec.Code)`. -/
def inMsg (r : HttpRequest) (code : Int) : String :=
  "in \x27" ++ r.method ++ " " ++ (r.host ++ r.path) ++ "\x27 " ++ Int.repr code

/-- Source middleware `RequestResponseLogger`, as the ordered list of its
observable actions.  The wrapped handler is modelled by what it writes to
the recorder given the request and the replayed body; `recErr` is the
outcome of reading the recorder's body back (`none` = success) and
`writeErr` the outcome of writing the recorded body to the real writer
(`none` = success); `ts`/`hn` are the ambient timestamp and hostname the
log events are stamped with. -/
def RequestResponseLogger (handler : HttpRequest → String → Recorded)
    (recErr : Option String) (writeErr : Option String)
    (ts hn : String) (r : HttpRequest) : List Step :=
  let refID := GetReferenceID r
  let user := GetUser r
  match r.body with
  | some (Except.error err) =>
    [Step.logged "failed ioutil.ReadAll"
       (log.applySetters
         [log.ReferenceID refID, log.User user, log.Error err,
          log.Context (some [("body", goDumpBody r.body)]),
          log.Request r.method r.host r.path r.query r.headers ""]
         (log.initEvent "failed ioutil.ReadAll" ts hn)),
     Step.setHeader "Content-Type" ["application/json"],
     Step.wroteStatus 500,
     Step.wroteBody (refIDBody refID)]
  | _ =>
    let reqBody := reqBodyOf r
    let rcd := handler r reqBody
    Step.handlerInvoked ::
    match recErr with
    | some err =>
      [Step.logged "failed ioutil.ReadAll"
         (log.applySetters
           [log.Error err, log.ReferenceID refID, log.User user,
            log.Context (some [("body", "&bytes.Buffer\x7b" ++ log.goQuote rcd.body ++ "\x7d")]),
            log.Request r.method r.host r.path r.query r.headers reqBody,
            log.Response rcd.code rcd.headers ""]
           (log.initEvent "failed ioutil.ReadAll" ts hn)),
       Step.setHeader "Content-Type" ["application/json"],
       Step.wroteStatus 500,
       Step.wroteBody (refIDBody refID)]
    | none =>
      let respBody := rcd.body
      (rcd.headers.map (fun p => Step.setHeader p.1 p.2))
      ++ [Step.wroteStatus rcd.code]
      ++ (if respBody.length > 0 then
            Step.wroteBody respBody ::
            (match writeErr with
             | some err =>
               [Step.logged "failed w.Write"
                  (log.applySetters
                    [log.ReferenceID refID, log.User user, log.Error err,
                     log.Context (some [("body", log.goQuote respBody)]),
                     log.Request r.method r.host r.path r.query r.headers reqBody,
                     log.Response rcd.code rcd.headers respBody]
                    (log.initEvent "failed w.Write" ts hn))]
             | none => [])
          else [])
      ++ [Step.logged (inMsg r rcd.code)
            (log.applySetters
              [log.ReferenceID refID, log.User user,
               log.Request r.method r.host r.path r.query r.headers reqBody,
               log.Response rcd.code rcd.headers respBody]
              (log.initEvent (inMsg r rcd.code) ts hn))]

/-- Headers delivered to the real response writer by a trace. -/
def headersWritten : List Step → List (String × List String)
  | [] => []
  | Step.setHeader k v :: t => (k, v) :: headersWritten t
  | _ :: t => headersWritten t

/-- Status codes committed to the real response writer by a trace. -/
def statusesWritten : List Step → List Int
  | [] => []
  | Step.wroteStatus c :: t => c :: statusesWritten t
  | _ :: t => statusesWritten t

/-- Body chunks written to the real response writer by a trace. -/
def bodiesWritten : List Step → List String
  | [] => []
  | Step.wroteBody b :: t => b :: bodiesWritten t
  | _ :: t => bodiesWritten t

/-- Log events emitted by a trace, as message/event pairs. -/
def eventsLogged : List Step → List (String × log.event)
  | [] => []
  | Step.logged m e :: t => (m, e) :: eventsLogged t
  | _ :: t => eventsLogged t

/-- Number of times a trace invoked the wrapped handler. -/
def handlerInvocations : List Step → Nat
  | [] => 0
  | Step.handlerInvoked :: t => handlerInvocations t + 1
  | _ :: t => handlerInvocations t

/-- Whether reading the inbound body succeeds (vacuously true for a nil
body). -/
def bodyReadOk (r : HttpRequest) : Prop :=
  match r.body with
  | some (Except.error _) => False
  | _ => True

end middleware

/-! Helper lemmas shared by several claims. -/

/-- Occurrence of one character sequence inside another: the substring
relation on the underlying character lists. -/
def occursIn (needle hay : List Char) : Prop :=
  ∃ s t, hay = s ++ needle ++ t

theorem string_eq_of_data_eq (s t : String) (h : s.data = t.data) : s = t := by
  cases s; cases t; exact congrArg String.mk h

theorem string_eq_empty_of_length (s : String) (h : s.length = 0) : s = "" := by
  obtain ⟨l⟩ := s
  cases l with
  | nil => rfl
  | cons c cs => simp [String.length] at h

theorem add_lt_ten_pow (k : Nat) (hk : 2 ≤ k) : k + 65 < 10 ^ k := by
  induction k, hk using Nat.le_induction with
  | base => norm_num
  | succ n hn ih =>
    have hx : 10 ^ (n + 1) = 10 ^ n * 10 := pow_succ 10 n
    omega

theorem formatBody_oversize (body : String) (h : log.BodyLimit < body.length) :
    log.formatBody body
      = "not logged: body size (" ++ Nat.repr body.length
          ++ " bytes) is bigger than limit (2048 bytes)"
    ∧ (log.formatBody body).length < body.length := by
  have hBL : log.BodyLimit = 2048 := rfl
  have h0 : ¬ body.length = 0 := by omega
  have e1 : log.formatBody body
      = "not logged: body size (" ++ Nat.repr body.length
        ++ " bytes) is bigger than limit (" ++ Nat.repr log.BodyLimit
        ++ " bytes)" := by
    simp [log.formatBody, h0, gt_iff_lt, h]
  have e2 : log.formatBody body
      = "not logged: body size (" ++ Nat.repr body.length
          ++ " bytes) is bigger than limit (2048 bytes)" := by
    rw [e1]
    apply string_eq_of_data_eq
    simp only [String.data_append, List.append_assoc, List.append_right_inj]
    decide
  refine ⟨e2, ?_⟩
  have hrep : (Nat.repr body.length).length ≤ body.length - 65 := by
    apply Nat.repr_length
    · omega
    · have h2 := add_lt_ten_pow (body.length - 65) (by omega)
      omega
  have hlen : (log.formatBody body).length
      = 23 + (Nat.repr body.length).length + 41 := by
    rw [e2]
    simp [String.length_append]
    rfl
  omega

/-- C2: bodies at or under the 2048-byte limit are formatted verbatim;
longer bodies are replaced by the fixed diagnostic stating the actual size
and the limit, and the raw content never occurs in the formatted output. -/
theorem c2_formatBody_limit (body : String) :
    (body.length ≤ log.BodyLimit → log.formatBody body = body)
    ∧ (log.BodyLimit < body.length →
        log.formatBody body
          = "not logged: body size (" ++ Nat.repr body.length
              ++ " bytes) is bigger than limit (2048 bytes)"
        ∧ ¬ occursIn body.data (log.formatBody body).data) := by
  constructor
  · intro hle
    by_cases h0 : body.length = 0
    · have : body = "" := string_eq_empty_of_length body h0
      subst this
      rfl
    · have hng : ¬ body.length > log.BodyLimit := by omega
      simp [log.formatBody, h0, hng]
  · intro hgt
    obtain ⟨e2, hlt⟩ := formatBody_oversize body hgt
    refine ⟨e2, ?_⟩
    rintro ⟨s, t, hocc⟩
    have := congrArg List.length hocc
    simp [List.length_append] at this
    have hdl : (log.formatBody body).data.length = (log.formatBody body).length := rfl
    have hbl : body.data.length = body.length := rfl
    omega

theorem c2_formatBody_limit_witness :
    log.formatBody "hi" = "hi"
    ∧ log.formatBody (String.mk (List.replicate 2049 'a'))
        = "not logged: body size (" ++ Nat.repr 2049
            ++ " bytes) is bigger than limit (2048 bytes)"
    ∧ ¬ occursIn (String.mk (List.replicate 2049 'a')).data
        (log.formatBody (String.mk (List.replicate 2049 'a'))).data := by
  have hlen : (String.mk (List.replicate 2049 'a')).length = 2049 := by
    show (List.replicate 2049 'a').length = 2049
    rw [List.length_replicate]
  have h1 := (c2_formatBody_limit "hi").1 (by decide)
  have h2 := (c2_formatBody_limit (String.mk (List.replicate 2049 'a'))).2
    (by rw [hlen]; decide)
  rw [hlen] at h2
  exact ⟨h1, h2.1, h2.2⟩

/-- C10: with a nil map, the Context option is the identity on the event
under construction, as are the Request option on all-empty arguments and
the Response option on a zero status with empty headers and body; in
particular a context set by an earlier option is retained, not cleared. -/
theorem c10_empty_composite_options_identity (e : log.event)
    (m : List (String × String)) :
    log.Context none e = e
    ∧ log.Request "" "" "" [] [] "" e = e
    ∧ log.Response 0 [] "" e = e
    ∧ (log.Context none (log.Context (some m) e)).Context = some m
    ∧ log.Request "" "" "" [] [] "" (log.Context (some m) e)
        = log.Context (some m) e
    ∧ log.Response 0 [] "" (log.Context (some m) e)
        = log.Context (some m) e := by
  refine ⟨rfl, ?_, ?_, rfl, ?_, ?_⟩ <;> simp [log.Request, log.Response]

/-- C5: an event built by Log with a nil or explicitly-empty Context
mapping serializes with no `context` key at all, while a non-empty mapping
serializes to exactly that mapping under the `context` key. -/
theorem c5_context_omission (msg ts hn : String)
    (c : Option (List (String × String))) :
    log.getKey "context"
        (log.marshalEvent (log.Context c (log.initEvent msg ts hn)))
      = match c with
        | none => none
        | some [] => none
        | some m => some (log.Json.obj (m.map (fun p => (p.1, log.Json.str p.2)))) := by
  by_cases hhn : hn = "" <;>
    rcases c with _ | ⟨_ | ⟨p, m⟩⟩ <;>
      simp [log.Context, log.initEvent, log.marshalEvent, log.getKey, hhn]

theorem getKey_append (key : String) (l1 l2 : List (String × log.Json)) :
    log.getKey key (l1 ++ l2)
      = match log.getKey key l1 with
        | some v => some v
        | none => log.getKey key l2 := by
  induction l1 with
  | nil => simp [log.getKey]
  | cons p rest ih =>
    obtain ⟨k2, v⟩ := p
    by_cases hk : k2 = key <;> simp [log.getKey, hk, ih]

/-- C3: the `request` sub-record is absent from the serialized event
exactly when the Request option was invoked with entirely empty arguments,
and the `response` sub-record is absent exactly when the Response option
was invoked with a zero status code and empty headers and body. -/
theorem c3_empty_subrecord_omission (msg ts hn method host path : String)
    (q : log.Values) (hd : log.Header) (b : String)
    (sc : Int) (hd2 : log.Header) (b2 : String) :
    (log.getKey "request" (log.marshalEvent
        (log.Request method host path q hd b (log.initEvent msg ts hn))) = none
      ↔ (method = "" ∧ host = "" ∧ path = "" ∧ q = [] ∧ hd = [] ∧ b = ""))
    ∧ (log.getKey "response" (log.marshalEvent
        (log.Response sc hd2 b2 (log.initEvent msg ts hn))) = none
      ↔ (sc = 0 ∧ hd2 = [] ∧ b2 = "")) := by
  constructor
  · by_cases hg : method = "" ∧ host = "" ∧ path = "" ∧ q.length = 0
        ∧ hd.length = 0 ∧ b.length = 0
    · have he : log.Request method host path q hd b (log.initEvent msg ts hn)
          = log.initEvent msg ts hn := by
        simp [log.Request, hg]
      rw [he]
      have hnone : log.getKey "request"
          (log.marshalEvent (log.initEvent msg ts hn)) = none := by
        by_cases hhn : hn = "" <;>
          simp [log.marshalEvent, log.initEvent, log.getKey, hhn]
      rw [hnone]
      obtain ⟨h1, h2, h3, h4, h5, h6⟩ := hg
      simp only [true_iff, eq_self_iff_true]
      exact ⟨h1, h2, h3, List.length_eq_zero.mp h4, List.length_eq_zero.mp h5,
        string_eq_empty_of_length _ h6⟩
    · have he : log.Request method host path q hd b (log.initEvent msg ts hn)
          = { log.initEvent msg ts hn with Request := some ⟨method, host, path, q, log.formatHeaders hd, log.formatBody b⟩ } := by
        simp only [log.Request]
        rw [if_neg hg]
      have hsome : log.getKey "request" (log.marshalEvent
          (log.Request method host path q hd b (log.initEvent msg ts hn)))
            ≠ none := by
        rw [he]
        simp [log.marshalEvent, log.initEvent, log.getKey]
      constructor
      · intro hnone; exact absurd hnone hsome
      · rintro ⟨h1, h2, h3, h4, h5, h6⟩
        exact absurd ⟨h1, h2, h3, by simp [h4], by simp [h5], by simp [h6]⟩ hg
  · by_cases hg : sc = 0 ∧ hd2.length = 0 ∧ b2.length = 0
    · have he : log.Response sc hd2 b2 (log.initEvent msg ts hn)
          = log.initEvent msg ts hn := by
        simp [log.Response, hg]
      rw [he]
      have hnone : log.getKey "response"
          (log.marshalEvent (log.initEvent msg ts hn)) = none := by
        by_cases hhn : hn = "" <;>
          simp [log.marshalEvent, log.initEvent, log.getKey, hhn]
      rw [hnone]
      obtain ⟨h1, h2, h3⟩ := hg
      simp only [true_iff, eq_self_iff_true]
      exact ⟨h1, List.length_eq_zero.mp h2, string_eq_empty_of_length _ h3⟩
    · have he : log.Response sc hd2 b2 (log.initEvent msg ts hn)
          = { log.initEvent msg ts hn with Response := some ⟨sc, log.formatHeaders hd2, log.formatBody b2⟩ } := by
        simp only [log.Response]
        rw [if_neg hg]
      have hsome : log.getKey "response" (log.marshalEvent
          (log.Response sc hd2 b2 (log.initEvent msg ts hn))) ≠ none := by
        rw [he]
        simp [log.marshalEvent, log.initEvent, log.getKey]
      constructor
      · intro hnone; exact absurd hnone hsome
      · rintro ⟨h1, h2, h3⟩
        exact absurd ⟨h1, by simp [h2], by simp [h3]⟩ hg

/-- C4: header flattening joins the values of each name with a comma and
space in their original order; an empty header mapping flattens to nil, so
the serialized sub-record omits the `headers` field entirely. -/
theorem c4_formatHeaders_flattening (h : log.Header) (k : String)
    (vs : List String) (r : log.request) :
    (h ≠ [] → log.formatHeaders h
        = some (h.map (fun p => (p.1, String.intercalate ", " p.2))))
    ∧ log.formatHeaders [] = none
    ∧ ((k, vs) ∈ h →
        (k, String.intercalate ", " vs) ∈ (log.formatHeaders h).getD [])
    ∧ (r.Headers = none →
        log.getKey "headers" (log.marshalRequest r) = none) := by
  have hmain : h ≠ [] → log.formatHeaders h
      = some (h.map (fun p => (p.1, String.intercalate ", " p.2))) := by
    intro hne
    simp [log.formatHeaders, List.length_eq_zero, hne]
  refine ⟨hmain, rfl, ?_, ?_⟩
  · intro hmem
    have hne : h ≠ [] := by
      intro hnil; rw [hnil] at hmem; exact absurd hmem (List.not_mem_nil _)
    rw [hmain hne]
    simpa using List.mem_map_of_mem (fun p => (p.1, String.intercalate ", " p.2)) hmem
  · intro hr
    simp only [log.marshalRequest, hr, getKey_append]
    split_ifs <;> simp [log.getKey]

theorem c4_formatHeaders_flattening_witness :
    log.formatHeaders [("X", ["a", "b"])] = some [("X", "a, b")]
    ∧ log.formatHeaders [] = none
    ∧ ("X", "a, b") ∈ (log.formatHeaders [("X", ["a", "b"])]).getD []
    ∧ log.getKey "headers"
        (log.marshalRequest
          { Method := "GET", Host := "example.org", Path := "/p",
            Query := [], Headers := none, Body := "" }) = none := by
  have h := c4_formatHeaders_flattening [("X", ["a", "b"])] "X" ["a", "b"]
    { Method := "GET", Host := "example.org", Path := "/p",
      Query := [], Headers := none, Body := "" }
  refine ⟨?_, h.2.1, h.2.2.1 (by simp), h.2.2.2 rfl⟩
  have h1 := h.1 (by simp)
  simpa using h1

/-- C7: when serialization of the event fails, Log writes the degraded
fixed-format fallback line (embedding the error text, the reference id and
a textual dump of the event) to the sink instead; when the sink write
fails, the failure is reported only on the secondary diagnostic stream
(standard output) and Log still returns normally to its caller with the
same sink content. -/
theorem c7_log_degraded_failure_paths
    (marshalRes : log.event → Except String String)
    (writeRes : String → Option String) (ts hn msg : String)
    (setters : List log.SetFieldValue) :
    (∀ err,
      marshalRes (log.applySetters setters (log.initEvent msg ts hn))
          = Except.error err →
      (log.Log false marshalRes writeRes ts hn msg setters).sinkWrites
        = [log.marshalFallback err
            (log.applySetters setters (log.initEvent msg ts hn))])
    ∧ (∀ s errW,
        marshalRes (log.applySetters setters (log.initEvent msg ts hn))
            = Except.ok s →
        writeRes s = some errW →
        log.Log false marshalRes writeRes ts hn msg setters
          = { sinkWrites := [s],
              stdoutWrites := [log.writeFallback errW
                (log.applySetters setters (log.initEvent msg ts hn)) s] }) := by
  constructor
  · intro err hm
    simp only [log.Log, Bool.false_eq_true, if_false]
    rw [hm]
    cases hw : writeRes (log.marshalFallback err
        (log.applySetters setters (log.initEvent msg ts hn))) <;> simp [hw]
  · intro s errW hm hw
    simp only [log.Log, Bool.false_eq_true, if_false]
    rw [hm, hw]

theorem c7_log_degraded_failure_paths_witness :
    (log.Log false (fun _ => Except.error "boom") (fun _ => none)
        "T" "H" "m" []).sinkWrites
      = [log.marshalFallback "boom" (log.initEvent "m" "T" "H")]
    ∧ log.Log false (fun _ => Except.ok "LOG") (fun _ => some "disk full")
        "T" "H" "m" []
      = { sinkWrites := ["LOG"],
          stdoutWrites := [log.writeFallback "disk full"
            (log.initEvent "m" "T" "H") "LOG"] } := by
  have h := c7_log_degraded_failure_paths (fun _ => Except.error "boom")
    (fun _ => none) "T" "H" "m" []
  have h2 := c7_log_degraded_failure_paths (fun _ => Except.ok "LOG")
    (fun _ => some "disk full") "T" "H" "m" []
  exact ⟨h.1 "boom" rfl, h2.2 "LOG" "disk full" rfl rfl⟩

/-- C8: the Reference-ID middleware takes the inbound `Reference-ID`
header when it is non-empty and a freshly generated id otherwise, stores
it in the request context under `reference_id` and sets it as the
`Reference-ID` response header, and only then invokes the wrapped handler
on the updated request and writer. -/
theorem c8_referenceID_middleware {α : Type} (gen : String)
    (handler : middleware.HttpRequest → middleware.RWriter → α)
    (w : middleware.RWriter) (r : middleware.HttpRequest) :
    (∀ v, middleware.headerGet r.headers "Reference-ID" = v → ¬ v = "" →
      middleware.ReferenceID gen handler w r
        = handler { r with ctx := ("reference_id", v) :: r.ctx }
            { w with headers := middleware.headersSet w.headers "Reference-ID" v })
    ∧ (middleware.headerGet r.headers "Reference-ID" = "" →
        middleware.ReferenceID gen handler w r
          = handler { r with ctx := ("reference_id", gen) :: r.ctx }
              { w with headers := middleware.headersSet w.headers "Reference-ID" gen })
    ∧ (∀ v, middleware.GetReferenceID { r with ctx := ("reference_id", v) :: r.ctx } = v)
    ∧ (∀ v, middleware.headerGet (middleware.headersSet w.headers "Reference-ID" v) "Reference-ID" = v) := by
  refine ⟨?_, ?_, ?_, ?_⟩
  · intro v hv hne
    simp only [middleware.ReferenceID]
    rw [hv, if_neg hne]
  · intro heq
    simp only [middleware.ReferenceID]
    rw [heq, if_pos rfl]
  · intro v
    simp [middleware.GetReferenceID, middleware.ctxValue]
  · intro v
    simp [middleware.headersSet, middleware.headerGet]

theorem c8_referenceID_middleware_witness :
    middleware.ReferenceID "gen1"
        (fun rr ww => (middleware.GetReferenceID rr,
          middleware.headerGet ww.headers "Reference-ID"))
        { headers := [] }
        { method := "GET", host := "h", path := "/", query := [],
          headers := [("Reference-ID", ["abc"])], ctx := [], body := none }
      = ("abc", "abc")
    ∧ middleware.ReferenceID "gen1"
        (fun rr ww => (middleware.GetReferenceID rr,
          middleware.headerGet ww.headers "Reference-ID"))
        { headers := [] }
        { method := "GET", host := "h", path := "/", query := [],
          headers := [], ctx := [], body := none }
      = ("gen1", "gen1") := by
  constructor
  · rw [(c8_referenceID_middleware "gen1"
      (fun rr ww => (middleware.GetReferenceID rr,
        middleware.headerGet ww.headers "Reference-ID"))
      { headers := [] }
      { method := "GET", host := "h", path := "/", query := [],
        headers := [("Reference-ID", ["abc"])], ctx := [], body := none }).1
        "abc" rfl (by decide)]
    rfl
  · rw [(c8_referenceID_middleware "gen1"
      (fun rr ww => (middleware.GetReferenceID rr,
        middleware.headerGet ww.headers "Reference-ID"))
      { headers := [] }
      { method := "GET", host := "h", path := "/", query := [],
        headers := [], ctx := [], body := none }).2.1 rfl]
    rfl

/-- C9: resolving the reference id and the user from the request context
is total and never fails: an absent value yields the empty string, a
present value is returned as is. -/
theorem c9_context_resolution_total (r : middleware.HttpRequest) :
    (middleware.ctxValue r.ctx "reference_id" = none →
      middleware.GetReferenceID r = "")
    ∧ (∀ v, middleware.ctxValue r.ctx "reference_id" = some v →
        middleware.GetReferenceID r = v)
    ∧ (middleware.ctxValue r.ctx "user" = none → middleware.GetUser r = "")
    ∧ (∀ v, middleware.ctxValue r.ctx "user" = some v →
        middleware.GetUser r = v) := by
  refine ⟨?_, ?_, ?_, ?_⟩
  · intro h; simp [middleware.GetReferenceID, h]
  · intro v h; simp [middleware.GetReferenceID, h]
  · intro h; simp [middleware.GetUser, h]
  · intro v h; simp [middleware.GetUser, h]

theorem c9_context_resolution_total_witness :
    middleware.GetReferenceID
        { method := "GET", host := "h", path := "/", query := [],
          headers := [], ctx := [], body := none } = ""
    ∧ middleware.GetReferenceID
        { method := "GET", host := "h", path := "/", query := [],
          headers := [], ctx := [("reference_id", "abc"), ("user", "u1")],
          body := none } = "abc"
    ∧ middleware.GetUser
        { method := "GET", host := "h", path := "/", query := [],
          headers := [], ctx := [], body := none } = ""
    ∧ middleware.GetUser
        { method := "GET", host := "h", path := "/", query := [],
          headers := [], ctx := [("reference_id", "abc"), ("user", "u1")],
          body := none } = "u1" := by
  have h1 := c9_context_resolution_total
    { method := "GET", host := "h", path := "/", query := [],
      headers := [], ctx := [], body := none }
  have h2 := c9_context_resolution_total
    { method := "GET", host := "h", path := "/", query := [],
      headers := [], ctx := [("reference_id", "abc"), ("user", "u1")],
      body := none }
  exact ⟨h1.1 rfl, h2.2.1 "abc" rfl, h1.2.2.1 rfl, h2.2.2.2 "u1" rfl⟩

/-- C6: when reading the inbound body fails, the capture middleware logs a
failure event tagged with the reference id, user and error, answers the
caller with status 500, content type JSON and the reference-id JSON body,
and never invokes the wrapped handler (the trace is independent of the
handler and contains no handler invocation). -/
theorem c6_inbound_read_failure
    (handler : middleware.HttpRequest → String → middleware.Recorded)
    (recErr writeErr : Option String) (ts hn : String)
    (r : middleware.HttpRequest) (err : String)
    (hb : r.body = some (Except.error err)) :
    (∃ ev : log.event,
      middleware.eventsLogged
          (middleware.RequestResponseLogger handler recErr writeErr ts hn r)
        = [("failed ioutil.ReadAll", ev)]
      ∧ ev.Error = err
      ∧ ev.ReferenceID = middleware.GetReferenceID r
      ∧ ev.User = middleware.GetUser r
      ∧ ev.Timestamp = ts)
    ∧ middleware.headersWritten
        (middleware.RequestResponseLogger handler recErr writeErr ts hn r)
      = [("Content-Type", ["application/json"])]
    ∧ middleware.statusesWritten
        (middleware.RequestResponseLogger handler recErr writeErr ts hn r)
      = [500]
    ∧ middleware.bodiesWritten
        (middleware.RequestResponseLogger handler recErr writeErr ts hn r)
      = [middleware.refIDBody (middleware.GetReferenceID r)]
    ∧ middleware.handlerInvocations
        (middleware.RequestResponseLogger handler recErr writeErr ts hn r)
      = 0
    ∧ (∀ handler2 : middleware.HttpRequest → String → middleware.Recorded,
        middleware.RequestResponseLogger handler2 recErr writeErr ts hn r
          = middleware.RequestResponseLogger handler recErr writeErr ts hn r) := by
  have ht : middleware.RequestResponseLogger handler recErr writeErr ts hn r
      = [middleware.Step.logged "failed ioutil.ReadAll"
           (log.applySetters
             [log.ReferenceID (middleware.GetReferenceID r),
              log.User (middleware.GetUser r), log.Error err,
              log.Context (some [("body", middleware.goDumpBody r.body)]),
              log.Request r.method r.host r.path r.query r.headers ""]
             (log.initEvent "failed ioutil.ReadAll" ts hn)),
         middleware.Step.setHeader "Content-Type" ["application/json"],
         middleware.Step.wroteStatus 500,
         middleware.Step.wroteBody
           (middleware.refIDBody (middleware.GetReferenceID r))] := by
    simp only [middleware.RequestResponseLogger, hb]
  refine ⟨⟨log.applySetters
      [log.ReferenceID (middleware.GetReferenceID r),
       log.User (middleware.GetUser r), log.Error err,
       log.Context (some [("body", middleware.goDumpBody r.body)]),
       log.Request r.method r.host r.path r.query r.headers ""]
      (log.initEvent "failed ioutil.ReadAll" ts hn), ?_, ?_, ?_, ?_, ?_⟩,
    ?_, ?_, ?_, ?_, ?_⟩
  · rw [ht]
    simp [middleware.eventsLogged]
  · show (log.Request r.method r.host r.path r.query r.headers ""
          (log.Context (some [("body", middleware.goDumpBody r.body)])
            (log.Error err (log.User (middleware.GetUser r)
              (log.ReferenceID (middleware.GetReferenceID r)
                (log.initEvent "failed ioutil.ReadAll" ts hn)))))).Error = err
    simp only [log.Request, log.Context, log.Error, log.User, log.ReferenceID,
      log.initEvent]
    split <;> rfl
  · show (log.Request r.method r.host r.path r.query r.headers ""
          (log.Context (some [("body", middleware.goDumpBody r.body)])
            (log.Error err (log.User (middleware.GetUser r)
              (log.ReferenceID (middleware.GetReferenceID r)
                (log.initEvent "failed ioutil.ReadAll" ts hn)))))).ReferenceID
        = middleware.GetReferenceID r
    simp only [log.Request, log.Context, log.Error, log.User, log.ReferenceID,
      log.initEvent]
    split <;> rfl
  · show (log.Request r.method r.host r.path r.query r.headers ""
          (log.Context (some [("body", middleware.goDumpBody r.body)])
            (log.Error err (log.User (middleware.GetUser r)
              (log.ReferenceID (middleware.GetReferenceID r)
                (log.initEvent "failed ioutil.ReadAll" ts hn)))))).User
        = middleware.GetUser r
    simp only [log.Request, log.Context, log.Error, log.User, log.ReferenceID,
      log.initEvent]
    split <;> rfl
  · show (log.Request r.method r.host r.path r.query r.headers ""
          (log.Context (some [("body", middleware.goDumpBody r.body)])
            (log.Error err (log.User (middleware.GetUser r)
              (log.ReferenceID (middleware.GetReferenceID r)
                (log.initEvent "failed ioutil.ReadAll" ts hn)))))).Timestamp = ts
    simp only [log.Request, log.Context, log.Error, log.User, log.ReferenceID,
      log.initEvent]
    split <;> rfl
  · rw [ht]
    simp [middleware.headersWritten]
  · rw [ht]
    simp [middleware.statusesWritten]
  · rw [ht]
    simp [middleware.bodiesWritten]
  · rw [ht]
    simp [middleware.handlerInvocations]
  · intro handler2
    rw [ht]
    simp only [middleware.RequestResponseLogger, hb]

theorem c6_inbound_read_failure_witness :
    middleware.statusesWritten (middleware.RequestResponseLogger
        (fun _ _ => { code := 200, headers := [], body := "" }) none none
        "T" "H"
        { method := "POST", host := "example.org", path := "/p", query := [],
          headers := [], ctx := [("reference_id", "rid1")],
          body := some (Except.error "read fail") }) = [500]
    ∧ middleware.bodiesWritten (middleware.RequestResponseLogger
        (fun _ _ => { code := 200, headers := [], body := "" }) none none
        "T" "H"
        { method := "POST", host := "example.org", path := "/p", query := [],
          headers := [], ctx := [("reference_id", "rid1")],
          body := some (Except.error "read fail") })
      = ["\x7b\"reference_id\": \"rid1\"\x7d"]
    ∧ middleware.headersWritten (middleware.RequestResponseLogger
        (fun _ _ => { code := 200, headers := [], body := "" }) none none
        "T" "H"
        { method := "POST", host := "example.org", path := "/p", query := [],
          headers := [], ctx := [("reference_id", "rid1")],
          body := some (Except.error "read fail") })
      = [("Content-Type", ["application/json"])]
    ∧ middleware.handlerInvocations (middleware.RequestResponseLogger
        (fun _ _ => { code := 200, headers := [], body := "" }) none none
        "T" "H"
        { method := "POST", host := "example.org", path := "/p", query := [],
          headers := [], ctx := [("reference_id", "rid1")],
          body := some (Except.error "read fail") }) = 0 := by
  have h := c6_inbound_read_failure
    (fun _ _ => { code := 200, headers := [], body := "" }) none none "T" "H"
    { method := "POST", host := "example.org", path := "/p", query := [],
      headers := [], ctx := [("reference_id", "rid1")],
      body := some (Except.error "read fail") } "read fail" rfl
  refine ⟨h.2.2.1, ?_, h.2.1, h.2.2.2.2.1⟩
  rw [h.2.2.2.1]
  rfl

theorem headersWritten_map_setHeader (l : List (String × List String))
    (rest : List middleware.Step) :
    middleware.headersWritten
        ((l.map (fun p => middleware.Step.setHeader p.1 p.2)) ++ rest)
      = l ++ middleware.headersWritten rest := by
  induction l with
  | nil => rfl
  | cons p ps ih => simp [middleware.headersWritten, ih]

theorem statusesWritten_map_setHeader (l : List (String × List String))
    (rest : List middleware.Step) :
    middleware.statusesWritten
        ((l.map (fun p => middleware.Step.setHeader p.1 p.2)) ++ rest)
      = middleware.statusesWritten rest := by
  induction l with
  | nil => rfl
  | cons p ps ih => simp [middleware.statusesWritten, ih]

theorem bodiesWritten_map_setHeader (l : List (String × List String))
    (rest : List middleware.Step) :
    middleware.bodiesWritten
        ((l.map (fun p => middleware.Step.setHeader p.1 p.2)) ++ rest)
      = middleware.bodiesWritten rest := by
  induction l with
  | nil => rfl
  | cons p ps ih => simp [middleware.bodiesWritten, ih]

theorem eventsLogged_map_setHeader (l : List (String × List String))
    (rest : List middleware.Step) :
    middleware.eventsLogged
        ((l.map (fun p => middleware.Step.setHeader p.1 p.2)) ++ rest)
      = middleware.eventsLogged rest := by
  induction l with
  | nil => rfl
  | cons p ps ih => simp [middleware.eventsLogged, ih]

/-- C1: on a request with no body-read failure and no write failure, the
capture middleware invokes the handler first, then copies to the real
response writer exactly the headers the handler wrote to the recorder,
then the recorded status code, then the recorded body if it is non-empty,
and finally emits exactly one inbound log event whose message is
`in '<method> <host><path>' <status>`. -/
theorem c1_capture_replay
    (handler : middleware.HttpRequest → String → middleware.Recorded)
    (ts hn : String) (r : middleware.HttpRequest)
    (rcd : middleware.Recorded)
    (hb : middleware.bodyReadOk r)
    (hrcd : rcd = handler r (middleware.reqBodyOf r)) :
    ∃ ev : log.event,
      middleware.RequestResponseLogger handler none none ts hn r
        = middleware.Step.handlerInvoked ::
            (rcd.headers.map (fun p => middleware.Step.setHeader p.1 p.2))
            ++ [middleware.Step.wroteStatus rcd.code]
            ++ (if rcd.body.length > 0 then [middleware.Step.wroteBody rcd.body]
                else [])
            ++ [middleware.Step.logged (middleware.inMsg r rcd.code) ev]
      ∧ middleware.headersWritten
          (middleware.RequestResponseLogger handler none none ts hn r)
        = rcd.headers
      ∧ middleware.statusesWritten
          (middleware.RequestResponseLogger handler none none ts hn r)
        = [rcd.code]
      ∧ middleware.bodiesWritten
          (middleware.RequestResponseLogger handler none none ts hn r)
        = (if rcd.body.length > 0 then [rcd.body] else [])
      ∧ middleware.eventsLogged
          (middleware.RequestResponseLogger handler none none ts hn r)
        = [(middleware.inMsg r rcd.code, ev)]
      ∧ ev.Message = middleware.inMsg r rcd.code
      ∧ ev.ReferenceID = middleware.GetReferenceID r
      ∧ ev.User = middleware.GetUser r := by
  subst hrcd
  have ht : middleware.RequestResponseLogger handler none none ts hn r
      = middleware.Step.handlerInvoked ::
          ((handler r (middleware.reqBodyOf r)).headers.map
            (fun p => middleware.Step.setHeader p.1 p.2))
          ++ [middleware.Step.wroteStatus (handler r (middleware.reqBodyOf r)).code]
          ++ (if (handler r (middleware.reqBodyOf r)).body.length > 0 then
                [middleware.Step.wroteBody (handler r (middleware.reqBodyOf r)).body]
              else [])
          ++ [middleware.Step.logged
                (middleware.inMsg r (handler r (middleware.reqBodyOf r)).code)
                (log.applySetters
                  [log.ReferenceID (middleware.GetReferenceID r),
                   log.User (middleware.GetUser r),
                   log.Request r.method r.host r.path r.query r.headers
                     (middleware.reqBodyOf r),
                   log.Response (handler r (middleware.reqBodyOf r)).code
                     (handler r (middleware.reqBodyOf r)).headers
                     (handler r (middleware.reqBodyOf r)).body]
                  (log.initEvent
                    (middleware.inMsg r (handler r (middleware.reqBodyOf r)).code)
                    ts hn))] := by
    cases hrb : r.body with
    | none =>
      simp only [middleware.RequestResponseLogger, middleware.reqBodyOf, hrb]
      simp [List.append_assoc]
    | some x =>
      cases x with
      | error e => simp [middleware.bodyReadOk, hrb] at hb
      | ok s =>
        simp only [middleware.RequestResponseLogger, middleware.reqBodyOf, hrb]
        simp [List.append_assoc]
  refine ⟨log.applySetters
      [log.ReferenceID (middleware.GetReferenceID r),
       log.User (middleware.GetUser r),
       log.Request r.method r.host r.path r.query r.headers
         (middleware.reqBodyOf r),
       log.Response (handler r (middleware.reqBodyOf r)).code
         (handler r (middleware.reqBodyOf r)).headers
         (handler r (middleware.reqBodyOf r)).body]
      (log.initEvent
        (middleware.inMsg r (handler r (middleware.reqBodyOf r)).code) ts hn),
    ht, ?_, ?_, ?_, ?_, ?_, ?_, ?_⟩
  · rw [ht]
    by_cases hc : (handler r (middleware.reqBodyOf r)).body.length > 0 <;>
      simp [hc, List.append_assoc, middleware.headersWritten,
        headersWritten_map_setHeader]
  · rw [ht]
    by_cases hc : (handler r (middleware.reqBodyOf r)).body.length > 0 <;>
      simp [hc, List.append_assoc, middleware.statusesWritten,
        statusesWritten_map_setHeader]
  · rw [ht]
    by_cases hc : (handler r (middleware.reqBodyOf r)).body.length > 0 <;>
      simp [hc, List.append_assoc, middleware.bodiesWritten,
        bodiesWritten_map_setHeader]
  · rw [ht]
    by_cases hc : (handler r (middleware.reqBodyOf r)).body.length > 0 <;>
      simp [hc, List.append_assoc, middleware.eventsLogged,
        eventsLogged_map_setHeader]
  · show (log.Response (handler r (middleware.reqBodyOf r)).code
        (handler r (middleware.reqBodyOf r)).headers
        (handler r (middleware.reqBodyOf r)).body
        (log.Request r.method r.host r.path r.query r.headers
          (middleware.reqBodyOf r)
          (log.User (middleware.GetUser r)
            (log.ReferenceID (middleware.GetReferenceID r)
              (log.initEvent
                (middleware.inMsg r (handler r (middleware.reqBodyOf r)).code)
                ts hn))))).Message
      = middleware.inMsg r (handler r (middleware.reqBodyOf r)).code
    simp only [log.Response, log.Request, log.User, log.ReferenceID,
      log.initEvent]
    split <;> split <;> rfl
  · show (log.Response (handler r (middleware.reqBodyOf r)).code
        (handler r (middleware.reqBodyOf r)).headers
        (handler r (middleware.reqBodyOf r)).body
        (log.Request r.method r.host r.path r.query r.headers
          (middleware.reqBodyOf r)
          (log.User (middleware.GetUser r)
            (log.ReferenceID (middleware.GetReferenceID r)
              (log.initEvent
                (middleware.inMsg r (handler r (middleware.reqBodyOf r)).code)
                ts hn))))).ReferenceID
      = middleware.GetReferenceID r
    simp only [log.Response, log.Request, log.User, log.ReferenceID,
      log.initEvent]
    split <;> split <;> rfl
  · show (log.Response (handler r (middleware.reqBodyOf r)).code
        (handler r (middleware.reqBodyOf r)).headers
        (handler r (middleware.reqBodyOf r)).body
        (log.Request r.method r.host r.path r.query r.headers
          (middleware.reqBodyOf r)
          (log.User (middleware.GetUser r)
            (log.ReferenceID (middleware.GetReferenceID r)
              (log.initEvent
                (middleware.inMsg r (handler r (middleware.reqBodyOf r)).code)
                ts hn))))).User
      = middleware.GetUser r
    simp only [log.Response, log.Request, log.User, log.ReferenceID,
      log.initEvent]
    split <;> split <;> rfl

theorem c1_capture_replay_witness :
    middleware.statusesWritten (middleware.RequestResponseLogger
        (fun _ _ =>
          { code := 201, headers := [("Content-Type", ["application/json"])], body := "ok" })
        none none "T" "H"
        { method := "POST", host := "example.org", path := "/p", query := [],
          headers := [("X", ["a", "b"])],
          ctx := [("reference_id", "rid1"), ("user", "u1")],
          body := some (Except.ok "hi") }) = [201]
    ∧ middleware.bodiesWritten (middleware.RequestResponseLogger
        (fun _ _ =>
          { code := 201, headers := [("Content-Type", ["application/json"])], body := "ok" })
        none none "T" "H"
        { method := "POST", host := "example.org", path := "/p", query := [],
          headers := [("X", ["a", "b"])],
          ctx := [("reference_id", "rid1"), ("user", "u1")],
          body := some (Except.ok "hi") }) = ["ok"]
    ∧ middleware.headersWritten (middleware.RequestResponseLogger
        (fun _ _ =>
          { code := 201, headers := [("Content-Type", ["application/json"])], body := "ok" })
        none none "T" "H"
        { method := "POST", host := "example.org", path := "/p", query := [],
          headers := [("X", ["a", "b"])],
          ctx := [("reference_id", "rid1"), ("user", "u1")],
          body := some (Except.ok "hi") })
      = [("Content-Type", ["application/json"])]
    ∧ (middleware.eventsLogged (middleware.RequestResponseLogger
        (fun _ _ =>
          { code := 201, headers := [("Content-Type", ["application/json"])], body := "ok" })
        none none "T" "H"
        { method := "POST", host := "example.org", path := "/p", query := [],
          headers := [("X", ["a", "b"])],
          ctx := [("reference_id", "rid1"), ("user", "u1")],
          body := some (Except.ok "hi") })).map Prod.fst
      = ["in \x27POST example.org/p\x27 201"] := by
  have h := c1_capture_replay
    (fun _ _ =>
      { code := 201, headers := [("Content-Type", ["application/json"])], body := "ok" })
    "T" "H"
    { method := "POST", host := "example.org", path := "/p", query := [],
      headers := [("X", ["a", "b"])],
      ctx := [("reference_id", "rid1"), ("user", "u1")],
      body := some (Except.ok "hi") }
    { code := 201, headers := [("Content-Type", ["application/json"])],
      body := "ok" }
    (by trivial) rfl
  obtain ⟨ev, ht, hh, hs, hb2, he, hm, hrid, hu⟩ := h
  refine ⟨hs, ?_, hh, ?_⟩
  · rw [hb2]
    decide
  · have h2 := congrArg (List.map Prod.fst) he
    rw [h2]
    rfl
